import Mathlib

/-! Verification of the page-rendering core of the rofd OFD viewer.

The development is a shallow embedding of src/render.rs. The supporting
modules that render.rs imports (crate::types, crate::elements, crate::ofd,
crate::document, crate::page) are not part of the repository snapshot, so
their small data carriers are modelled from the specification; each such
definition carries a doc comment starting with "Modelled from the spec:".
The two graphics backends (cairo and QPainter) are external libraries; they
are embedded as explicit operation traces over an explicit graphics state
(current transformation matrix, source color, save/restore stack), with a
failure oracle standing in for the backend's fallible calls, and Rust
panics reified as a third outcome next to Ok and Err. -/

set_option maxHeartbeats 1000000

namespace Rofd

/-- Modelled from the spec: crate::types::mmtopx applies a single fixed
device-pixel-density scale factor (here four device pixels per millimetre);
the spec requires only that it is one fixed positive scale. -/
def mmtopx (v : ℚ) : ℚ := 4 * v

namespace ct

/-- Modelled from the spec: crate::types::ct::Box, an axis-aligned rectangle
with four numeric fields. -/
structure Box where
  x : ℚ
  y : ℚ
  width : ℚ
  height : ℚ
deriving DecidableEq

/-- Modelled from the spec: Box::to_pixel scales all four fields
independently from millimetres to pixels. -/
def Box.to_pixel (b : Box) : Box :=
  ⟨mmtopx b.x, mmtopx b.y, mmtopx b.width, mmtopx b.height⟩

/-- Modelled from the spec: ct::Box::from on an element boundary is a direct
copy of the four parsed millimetre fields. -/
def Box.fromElem (b : Box) : Box := b

/-- Modelled from the spec: crate::types::ct::Color, a 3-component byte
triple. -/
structure Color where
  value : ℕ × ℕ × ℕ
deriving DecidableEq

/-- Modelled from the spec: ct::Color::from is a direct field copy with no
color-space transform. -/
def Color.fromValue (v : ℕ × ℕ × ℕ) : Color := ⟨v⟩

/-- Modelled from the spec: crate::types::ct::Matrix, six affine
coefficients a..f in the convention x' = a·x + c·y + e, y' = b·x + d·y + f. -/
structure Matrix where
  a : ℚ
  b : ℚ
  c : ℚ
  d : ℚ
  e : ℚ
  f : ℚ
deriving DecidableEq

/-- Modelled from the spec: ct::Matrix::from on an element CTM is a direct
copy of the six parsed coefficients. -/
def Matrix.fromElem (m : Matrix) : Matrix := m

end ct

namespace elements

/-- Modelled from the spec: crate::elements::Color, whose value attribute
carries the raw 3-component byte triple consumed by ct::Color::from. -/
structure Color where
  value : ℕ × ℕ × ℕ
deriving DecidableEq

/-- Modelled from the spec: the defined default fill color used when a
TextObject supplies none (Color::default()). -/
def Color.default : Color := ⟨(0, 0, 0)⟩

/-- Modelled from the spec: a text run's content string and its local
millimetre offset within the boundary box (text_code.x / text_code.y). -/
structure TextCode where
  x : ℚ
  y : ℚ
  value : String
deriving DecidableEq

/-- Modelled from the spec: one entry of the document's public font table,
keyed by integer id, with a family name. -/
structure Font where
  id : ℕ
  family_name : String
deriving DecidableEq

end elements

/-- Modelled from the spec: PathObject: boundary box (mm), optional stroke
color, line width (mm). -/
structure PathObject where
  boundary : ct.Box
  stroke_color : Option elements.Color
  line_width : ℚ
deriving DecidableEq

/-- Modelled from the spec: TextObject: boundary box (mm), optional fill
color, font reference id, font size (mm), text content plus offset, and an
optional local affine transform (CTM). -/
structure TextObject where
  boundary : ct.Box
  fill_color : Option elements.Color
  font : ℕ
  size : ℚ
  text_code : elements.TextCode
  ctm : Option ct.Matrix
deriving DecidableEq

/-- Modelled from the spec: ImageObject: boundary box (mm) and a reference
id into the document resource table. -/
structure ImageObject where
  boundary : ct.Box
  resource_id : ℕ
deriving DecidableEq

/-- Modelled from the spec: the document's public resource font table
(document.public_res.fonts.font). -/
structure Fonts where
  font : List elements.Font
deriving DecidableEq

/-- Modelled from the spec: document.public_res. -/
structure PublicRes where
  fonts : Fonts
deriving DecidableEq

/-- Modelled from the spec: one multimedia entry of the document resource
table, keyed by integer id and naming a media file. -/
structure MultiMedia where
  id : ℕ
  media_file : String
deriving DecidableEq

/-- Modelled from the spec: document.doc_res.multi_medias. -/
structure MultiMedias where
  multi_media : List MultiMedia
deriving DecidableEq

/-- Modelled from the spec: the document resource table with its
base-location path prefix. -/
structure DocRes where
  base_loc : String
  multi_medias : MultiMedias
deriving DecidableEq

/-- Modelled from the spec: the parsed Document with its public resource
table (fonts) and document resource table (multimedia). -/
structure Document where
  public_res : PublicRes
  doc_res : DocRes
deriving DecidableEq

/-- Modelled from the spec: raster bytes read from the archive, abstracted
by their decode outcome: either a decodable PNG with its pixel dimensions,
or bytes the fixed PNG codec cannot decode. -/
inductive ImageBytes where
  | png (w h : ℕ)
  | invalid
deriving DecidableEq

/-- Modelled from the spec: ofd.node.doc_body, holding the path of the
document's root descriptor inside the archive. -/
structure DocBody where
  doc_root : String
deriving DecidableEq

/-- Modelled from the spec: the root node of the container descriptor. -/
structure OfdNode where
  doc_body : DocBody
deriving DecidableEq

/-- Modelled from the spec: the container session: the root descriptor path
and the opened archive, embedded as a name-to-bytes association list with
exact, case-sensitive name match. -/
structure Ofd where
  node : OfdNode
  zip_archive : List (String × ImageBytes)
deriving DecidableEq

/-- Modelled from the spec: exact-name archive member lookup
(zip_archive.by_name). -/
def lookupEntry : List (String × ImageBytes) → String → Option ImageBytes
  | [], _ => none
  | (n, b) :: rest, name => if n = name then some b else lookupEntry rest name

/-- Modelled from the spec: drop the last component of a forward-slash path
(the list-of-characters worker for Path::parent). -/
def dropLastComponent (cs : List Char) : List Char :=
  match cs.reverse.dropWhile (fun c => c ≠ '/') with
  | [] => []
  | _ :: rest => rest.reverse

/-- Modelled from the spec: parent directory of a forward-slash path
(std::path::Path::parent, yielding the empty path for a bare file name). -/
def pathParent (p : String) : String :=
  String.mk (dropLastComponent p.data)

/-- Modelled from the spec: forward-slash path join (std::path::Path::join
on relative archive paths). -/
def pathJoin (a b : String) : String :=
  match a.data with
  | [] => b
  | _ => String.mk (a.data ++ '/' :: b.data)

/-- Archive entry name an ImageObject resource resolves to: the parent of
the document root joined with the base location and the media file name
(render.rs lines 177-180). -/
def resPathOf (ofd : Ofd) (doc : Document) (r : MultiMedia) : String :=
  pathJoin (pathJoin (pathParent ofd.node.doc_body.doc_root) doc.doc_res.base_loc) r.media_file

/-- Cairo affine matrix (cairo_matrix_t) with device coordinates
x = xx·u + xy·v + x0, y = yx·u + yy·v + y0 for user point (u, v). -/
structure CairoMatrix where
  xx : ℚ
  yx : ℚ
  xy : ℚ
  yy : ℚ
  x0 : ℚ
  y0 : ℚ
deriving DecidableEq

/-- Device point of a user-space point under a cairo matrix. -/
def CairoMatrix.apply (m : CairoMatrix) (p : ℚ × ℚ) : ℚ × ℚ :=
  (m.xx * p.1 + m.xy * p.2 + m.x0, m.yx * p.1 + m.yy * p.2 + m.y0)

/-- Composition applying the inner matrix first, then the outer one; this is
how cairo_transform folds a new matrix into the current transformation. -/
def CairoMatrix.comp (outer inner : CairoMatrix) : CairoMatrix :=
  ⟨outer.xx * inner.xx + outer.xy * inner.yx,
   outer.yx * inner.xx + outer.yy * inner.yx,
   outer.xx * inner.xy + outer.xy * inner.yy,
   outer.yx * inner.xy + outer.yy * inner.yy,
   outer.xx * inner.x0 + outer.xy * inner.y0 + outer.x0,
   outer.yx * inner.x0 + outer.yy * inner.y0 + outer.y0⟩

def CairoMatrix.identityM : CairoMatrix := ⟨1, 0, 0, 1, 0, 0⟩

def CairoMatrix.translationM (tx ty : ℚ) : CairoMatrix := ⟨1, 0, 0, 1, tx, ty⟩

def CairoMatrix.scaleM (sx sy : ℚ) : CairoMatrix := ⟨sx, 0, 0, sy, 0, 0⟩

/-- Conversion of a ct::Matrix into a cairo::Matrix with the documented
coefficient mapping a→xx, b→yx, c→xy, d→yy, e→x0, f→y0 (render.rs 298-309). -/
def cairoMatrixOfCt (m : ct.Matrix) : CairoMatrix :=
  ⟨m.a, m.b, m.c, m.d, m.e, m.f⟩

/-- Cairo status values returned by fallible context calls. -/
structure CairoError where
  code : ℕ
deriving DecidableEq

/-- One recorded cairo drawing call. The showText operation records the
device position of the local origin the text is drawn at, and paint records
the device-space quadrilateral the current source surface covers, so that
visual placement can be read off the trace. -/
inductive CairoOp where
  | save
  | restore
  | setSourceRgb (r g b : ℚ)
  | setLineWidth (w : ℚ)
  | moveTo (x y : ℚ)
  | lineTo (x y : ℚ)
  | stroke
  | selectFontFace (family : String)
  | setFontSize (v : ℚ)
  | translate (tx ty : ℚ)
  | transform (m : CairoMatrix)
  | showText (s : String) (pos : ℚ × ℚ)
  | scale (sx sy : ℚ)
  | setSourceSurface (w h : ℕ) (x y : ℚ)
  | paint (quad : List (ℚ × ℚ))
deriving DecidableEq

/-- The cairo graphics state affected by save/restore: current
transformation matrix, source color, line width, selected font, current
point and current source-surface placement. -/
structure CairoState where
  ctm : CairoMatrix
  sourceRgb : ℚ × ℚ × ℚ
  lineWidth : ℚ
  fontFamily : Option String
  fontSize : ℚ
  currentPoint : Option (ℚ × ℚ)
  sourceQuad : Option (List (ℚ × ℚ))
deriving DecidableEq

def CairoState.initial : CairoState :=
  ⟨CairoMatrix.identityM, (0, 0, 0), 2, none, 10, none, none⟩

/-- A cairo context: the active graphics state and the save/restore stack. -/
structure CairoSt where
  gs : CairoState
  stack : List CairoState
deriving DecidableEq

/-- Outcome of a fallible render call: Ok, Err (as returned by cairo's
Result-bearing calls) or a Rust panic (an unwrap on None or Err). -/
inductive RRes where
  | ok
  | err (e : CairoError)
  | panic (msg : String)
deriving DecidableEq

def unwrapNoneMsg : String := "called Option::unwrap() on a None value"

def unwrapErrMsg : String := "called Result::unwrap() on an Err value"

/-- Failure oracle for the backend's fallible calls: an abstraction of the
external cairo surface deciding which calls report an error. -/
abbrev FailOracle := CairoOp → Option CairoError

def opSave (fl : FailOracle) (s : CairoSt) : List CairoOp × CairoSt × RRes :=
  match fl .save with
  | some e => ([.save], s, .err e)
  | none => ([.save], ⟨s.gs, s.gs :: s.stack⟩, .ok)

def opRestore (fl : FailOracle) (s : CairoSt) : List CairoOp × CairoSt × RRes :=
  match fl .restore with
  | some e => ([.restore], s, .err e)
  | none =>
    match s.stack with
    | [] => ([.restore], s, .err ⟨11⟩)
    | g :: rest => ([.restore], ⟨g, rest⟩, .ok)

def opStroke (fl : FailOracle) (s : CairoSt) : List CairoOp × CairoSt × RRes :=
  match fl .stroke with
  | some e => ([.stroke], s, .err e)
  | none => ([.stroke], ⟨{ s.gs with currentPoint := none }, s.stack⟩, .ok)

def opShowText (fl : FailOracle) (text : String) (s : CairoSt) :
    List CairoOp × CairoSt × RRes :=
  match fl (.showText text (s.gs.ctm.apply (s.gs.currentPoint.getD (0, 0)))) with
  | some e => ([.showText text (s.gs.ctm.apply (s.gs.currentPoint.getD (0, 0)))], s, .err e)
  | none => ([.showText text (s.gs.ctm.apply (s.gs.currentPoint.getD (0, 0)))], s, .ok)

def opSetSourceSurface (fl : FailOracle) (w h : ℕ) (x y : ℚ) (s : CairoSt) :
    List CairoOp × CairoSt × RRes :=
  match fl (.setSourceSurface w h x y) with
  | some e => ([.setSourceSurface w h x y], s, .err e)
  | none =>
    ([.setSourceSurface w h x y],
     ⟨{ s.gs with sourceQuad := some [s.gs.ctm.apply (x, y), s.gs.ctm.apply (x + w, y),
        s.gs.ctm.apply (x + w, y + h), s.gs.ctm.apply (x, y + h)] }, s.stack⟩, .ok)

def opPaint (fl : FailOracle) (s : CairoSt) : List CairoOp × CairoSt × RRes :=
  match fl (.paint (s.gs.sourceQuad.getD [])) with
  | some e => ([.paint (s.gs.sourceQuad.getD [])], s, .err e)
  | none => ([.paint (s.gs.sourceQuad.getD [])], s, .ok)

def opSetSourceRgb (r g b : ℚ) (s : CairoSt) : List CairoOp × CairoSt :=
  ([.setSourceRgb r g b], ⟨{ s.gs with sourceRgb := (r, g, b) }, s.stack⟩)

def opSetLineWidth (w : ℚ) (s : CairoSt) : List CairoOp × CairoSt :=
  ([.setLineWidth w], ⟨{ s.gs with lineWidth := w }, s.stack⟩)

def opMoveTo (x y : ℚ) (s : CairoSt) : List CairoOp × CairoSt :=
  ([.moveTo x y], ⟨{ s.gs with currentPoint := some (x, y) }, s.stack⟩)

def opLineTo (x y : ℚ) (s : CairoSt) : List CairoOp × CairoSt :=
  ([.lineTo x y], ⟨{ s.gs with currentPoint := some (x, y) }, s.stack⟩)

def opSelectFontFace (fam : String) (s : CairoSt) : List CairoOp × CairoSt :=
  ([.selectFontFace fam], ⟨{ s.gs with fontFamily := some fam }, s.stack⟩)

def opSetFontSize (v : ℚ) (s : CairoSt) : List CairoOp × CairoSt :=
  ([.setFontSize v], ⟨{ s.gs with fontSize := v }, s.stack⟩)

def opTranslate (tx ty : ℚ) (s : CairoSt) : List CairoOp × CairoSt :=
  ([.translate tx ty], ⟨{ s.gs with ctm := s.gs.ctm.comp (CairoMatrix.translationM tx ty) }, s.stack⟩)

def opTransform (m : CairoMatrix) (s : CairoSt) : List CairoOp × CairoSt :=
  ([.transform m], ⟨{ s.gs with ctm := s.gs.ctm.comp m }, s.stack⟩)

def opScale (sx sy : ℚ) (s : CairoSt) : List CairoOp × CairoSt :=
  ([.scale sx sy], ⟨{ s.gs with ctm := s.gs.ctm.comp (CairoMatrix.scaleM sx sy) }, s.stack⟩)

/-- Embedding of PathObject::render_to_cairo_context (render.rs 56-82):
save, set stroke color and mm→px line width, trace the boundary box as a
closed four-corner rectangle, stroke, restore. The stroke color is
unwrapped unconditionally. -/
def PathObject.render_to_cairo_context (fl : FailOracle) (p : PathObject)
    (s : CairoSt) : List CairoOp × CairoSt × RRes :=
  match opSave fl s with
  | (tr, s1, .err e) => (tr, s1, .err e)
  | (tr, s1, .panic m) => (tr, s1, .panic m)
  | (tr, s1, .ok) =>
    let boundary := (ct.Box.fromElem p.boundary).to_pixel
    match p.stroke_color with
    | none => (tr, s1, .panic unwrapNoneMsg)
    | some sc =>
      let color := ct.Color.fromValue sc.value
      let (t2, s2) := opSetSourceRgb ((color.value.1 : ℚ) / 255)
        ((color.value.2.1 : ℚ) / 255) ((color.value.2.2 : ℚ) / 255) s1
      let (t3, s3) := opSetLineWidth (mmtopx p.line_width) s2
      let (t4, s4) := opMoveTo boundary.x boundary.y s3
      let (t5, s5) := opLineTo (boundary.x + boundary.width) boundary.y s4
      let (t6, s6) := opLineTo (boundary.x + boundary.width) (boundary.y + boundary.height) s5
      let (t7, s7) := opLineTo boundary.x (boundary.y + boundary.height) s6
      let (t8, s8) := opLineTo boundary.x boundary.y s7
      match opStroke fl s8 with
      | (t9, s9, .err e) => (tr ++ t2 ++ t3 ++ t4 ++ t5 ++ t6 ++ t7 ++ t8 ++ t9, s9, .err e)
      | (t9, s9, .panic m) => (tr ++ t2 ++ t3 ++ t4 ++ t5 ++ t6 ++ t7 ++ t8 ++ t9, s9, .panic m)
      | (t9, s9, .ok) =>
        match opRestore fl s9 with
        | (t10, s10, r) => (tr ++ t2 ++ t3 ++ t4 ++ t5 ++ t6 ++ t7 ++ t8 ++ t9 ++ t10, s10, r)

/-- One recorded QPainter drawing call. -/
inductive QPainterOp where
  | save
  | restore
  | setPen (r g b : ℕ) (width : ℤ)
  | drawRect (x y w h : ℚ)
deriving DecidableEq

/-- Outcome of a QPainter render call: the painter interface has no error
channel, but Rust panics still abort it. -/
inductive QPRes where
  | ok
  | panic (msg : String)
deriving DecidableEq

/-- Truncation toward zero, the behavior of the Rust f64-to-i32 cast applied
to the pen width. -/
def ratToI32 (q : ℚ) : ℤ := q.num.tdiv q.den

/-- Embedding of PathObject::render_to_qpainter (render.rs 84-110): save,
unwrap the stroke color, set a pen with the color and the truncated mm→px
width, draw the boundary rectangle, restore. -/
def PathObject.render_to_qpainter (p : PathObject) : List QPainterOp × QPRes :=
  match p.stroke_color with
  | none => ([.save], .panic unwrapNoneMsg)
  | some sc =>
    let boundary := (ct.Box.fromElem p.boundary).to_pixel
    let color := ct.Color.fromValue sc.value
    ([.save, .setPen color.value.1 color.value.2.1 color.value.2.2 (ratToI32 (mmtopx p.line_width)),
      .drawRect boundary.x boundary.y boundary.width boundary.height, .restore], .ok)

/-- Embedding of the font-table loop of TextObject::render_to_cairo_context
(render.rs 123-130): linear scan of document.public_res.fonts.font,
selecting the family of the first entry with matching id and stopping. -/
def selectFontLoop (fonts : List elements.Font) (fid : ℕ) (s : CairoSt) :
    List CairoOp × CairoSt :=
  match fonts with
  | [] => ([], s)
  | f :: rest =>
    if f.id = fid then opSelectFontFace f.family_name s
    else selectFontLoop rest fid s

/-- Embedding of the tail of TextObject::render_to_cairo_context
(render.rs 150-153): move to the local origin, draw the text string there,
and restore. -/
def showTextAndRestore (fl : FailOracle) (text : String) (s : CairoSt) :
    List CairoOp × CairoSt × RRes :=
  let (t7, s7) := opMoveTo 0 0 s
  match opShowText fl text s7 with
  | (t8, s8, .err e) => (t7 ++ t8, s8, .err e)
  | (t8, s8, .panic m) => (t7 ++ t8, s8, .panic m)
  | (t8, s8, .ok) =>
    match opRestore fl s8 with
    | (t9, s9, r) => (t7 ++ t8 ++ t9, s9, r)

/-- Embedding of TextObject::render_to_cairo_context (render.rs 114-154):
save, resolve the font by id, set font size and fill color (default color
when none), translate to box top-left plus the text offset, compose the
optional CTM after the translation, draw the text at the local origin,
restore. -/
def TextObject.render_to_cairo_context (fl : FailOracle) (doc : Document)
    (t : TextObject) (s : CairoSt) : List CairoOp × CairoSt × RRes :=
  match opSave fl s with
  | (tr, s1, .err e) => (tr, s1, .err e)
  | (tr, s1, .panic m) => (tr, s1, .panic m)
  | (tr, s1, .ok) =>
    let boundary := (ct.Box.fromElem t.boundary).to_pixel
    let fill_color := ct.Color.fromValue (t.fill_color.getD elements.Color.default).value
    let (t2, s2) := selectFontLoop doc.public_res.fonts.font t.font s1
    let (t3, s3) := opSetFontSize (mmtopx t.size) s2
    let (t4, s4) := opSetSourceRgb ((fill_color.value.1 : ℚ) / 255)
      ((fill_color.value.2.1 : ℚ) / 255) ((fill_color.value.2.2 : ℚ) / 255) s3
    let (t5, s5) := opTranslate (boundary.x + mmtopx t.text_code.x)
      (boundary.y + mmtopx t.text_code.y) s4
    let (t6, s6) :=
      match t.ctm with
      | some m => opTransform (cairoMatrixOfCt (ct.Matrix.fromElem m)) s5
      | none => ([], s5)
    let res := showTextAndRestore fl t.text_code.value s6
    (tr ++ t2 ++ t3 ++ t4 ++ t5 ++ t6 ++ res.1, res.2.1, res.2.2)

/-- Embedding of TextObject::render_to_qpainter (render.rs 156-159), which
only logs and draws nothing. -/
def TextObject.render_to_qpainter (_t : TextObject) : List QPainterOp × QPRes :=
  ([], .ok)

/-- Embedding of the resource loop of ImageObject::render_to_cairo_context
(render.rs 175-196): for every multimedia entry with matching id, resolve
the joined archive path, unwrap the archive read, unwrap the PNG decode,
scale user space so the surface spans the pixel boundary box, set the
surface as source at the boundary origin and paint. -/
def renderImageLoop (fl : FailOracle) (img : ImageObject) (boundary : ct.Box)
    (ofd : Ofd) (doc : Document) :
    List MultiMedia → CairoSt → List CairoOp × CairoSt × RRes
  | [], s => ([], s, .ok)
  | r :: rest, s =>
    if r.id = img.resource_id then
      match lookupEntry ofd.zip_archive (resPathOf ofd doc r) with
      | none => ([], s, .panic unwrapErrMsg)
      | some .invalid => ([], s, .panic unwrapErrMsg)
      | some (.png w h) =>
        let (t1, s1) := opScale (boundary.width / (w : ℚ)) (boundary.height / (h : ℚ)) s
        match opSetSourceSurface fl w h boundary.x boundary.y s1 with
        | (t2, s2, .err e) => (t1 ++ t2, s2, .err e)
        | (t2, s2, .panic m) => (t1 ++ t2, s2, .panic m)
        | (t2, s2, .ok) =>
          match opPaint fl s2 with
          | (t3, s3, .err e) => (t1 ++ t2 ++ t3, s3, .err e)
          | (t3, s3, .panic m) => (t1 ++ t2 ++ t3, s3, .panic m)
          | (t3, s3, .ok) =>
            let res := renderImageLoop fl img boundary ofd doc rest s3
            (t1 ++ t2 ++ t3 ++ res.1, res.2.1, res.2.2)
    else renderImageLoop fl img boundary ofd doc rest s

/-- Embedding of ImageObject::render_to_cairo_context (render.rs 164-200):
save, run the resource loop, restore on the success path. -/
def ImageObject.render_to_cairo_context (fl : FailOracle) (ofd : Ofd)
    (doc : Document) (img : ImageObject) (s : CairoSt) :
    List CairoOp × CairoSt × RRes :=
  match opSave fl s with
  | (tr, s1, .err e) => (tr, s1, .err e)
  | (tr, s1, .panic m) => (tr, s1, .panic m)
  | (tr, s1, .ok) =>
    let boundary := (ct.Box.fromElem img.boundary).to_pixel
    match renderImageLoop fl img boundary ofd doc doc.doc_res.multi_medias.multi_media s1 with
    | (t2, s2, .ok) =>
      match opRestore fl s2 with
      | (t3, s3, r) => (tr ++ t2 ++ t3, s3, r)
    | (t2, s2, .err e) => (tr ++ t2, s2, .err e)
    | (t2, s2, .panic m) => (tr ++ t2, s2, .panic m)

/-- Embedding of ImageObject::render_to_qpainter (render.rs 202-205), which
only logs and draws nothing. -/
def ImageObject.render_to_qpainter (_i : ImageObject) : List QPainterOp × QPRes :=
  ([], .ok)

/-- The content-tree event union. A PageBlock owns its ordered child event
sequence outright (its single events field is inlined here). -/
inductive Event where
  | pathObject (p : PathObject)
  | textObject (t : TextObject)
  | imageObject (i : ImageObject)
  | pageBlock (events : List Event)

mutual
/-- Dispatch of one event to its cairo render implementation, as matched in
the walker loop (render.rs 224-250); a PageBlock event recurses into the
walker (render.rs 208-213). -/
def renderEventCairo (fl : FailOracle) (ofd : Ofd) (doc : Document) :
    Event → CairoSt → List CairoOp × CairoSt × RRes
  | .pathObject p, s => PathObject.render_to_cairo_context fl p s
  | .textObject t, s => TextObject.render_to_cairo_context fl doc t s
  | .imageObject i, s => ImageObject.render_to_cairo_context fl ofd doc i s
  | .pageBlock es, s => render_page_block_to_cairo fl ofd doc es s

/-- Embedding of the walker _render_page_block_to_cairo (render.rs 222-254):
events render strictly in sequence order and the first Err aborts the walk
and becomes its result; a panic likewise unwinds it. -/
def render_page_block_to_cairo (fl : FailOracle) (ofd : Ofd) (doc : Document) :
    List Event → CairoSt → List CairoOp × CairoSt × RRes
  | [], s => ([], s, .ok)
  | e :: rest, s =>
    match renderEventCairo fl ofd doc e s with
    | (t1, s1, .ok) =>
      let res := render_page_block_to_cairo fl ofd doc rest s1
      (t1 ++ res.1, res.2.1, res.2.2)
    | (t1, s1, .err er) => (t1, s1, .err er)
    | (t1, s1, .panic m) => (t1, s1, .panic m)
end

/-- Dispatch of one event to its QPainter render implementation, as matched
in _render_page_block_to_qpainter (render.rs 258-272). TextObject,
ImageObject and PageBlock render_to_qpainter only log, so they contribute
nothing. -/
def renderEventQP : Event → List QPainterOp × QPRes
  | .pathObject p => PathObject.render_to_qpainter p
  | .textObject t => TextObject.render_to_qpainter t
  | .imageObject i => ImageObject.render_to_qpainter i
  | .pageBlock _ => ([], .ok)

/-- Embedding of _render_page_block_to_qpainter (render.rs 256-274): events
render in sequence order; there is no error channel, but a panic unwinds. -/
def render_page_block_to_qpainter : List Event → List QPainterOp × QPRes
  | [] => ([], .ok)
  | e :: rest =>
    match renderEventQP e with
    | (t1, .ok) =>
      let res := render_page_block_to_qpainter rest
      (t1 ++ res.1, res.2)
    | (t1, .panic m) => (t1, .panic m)

/-- Modelled from the spec: a page's single content layer, an ordered event
sequence. -/
structure Layer where
  events : List Event

/-- Modelled from the spec: page.content. -/
structure PageContent where
  layer : Layer

/-- Modelled from the spec: one document page with its content layer. -/
structure Page where
  content : PageContent

/-- Embedding of Page::render_to_cairo_context (render.rs 40-45). -/
def Page.render_to_cairo_context (fl : FailOracle) (ofd : Ofd) (doc : Document)
    (pg : Page) (s : CairoSt) : List CairoOp × CairoSt × RRes :=
  render_page_block_to_cairo fl ofd doc pg.content.layer.events s

/-- Embedding of Page::render_to_qpainter (render.rs 47-52). -/
def Page.render_to_qpainter (pg : Page) : List QPainterOp × QPRes :=
  render_page_block_to_qpainter pg.content.layer.events

/-- Trace projection: the points traced by moveTo and lineTo, in order. -/
def pathPts : List CairoOp → List (ℚ × ℚ)
  | [] => []
  | .moveTo x y :: rest => (x, y) :: pathPts rest
  | .lineTo x y :: rest => (x, y) :: pathPts rest
  | _ :: rest => pathPts rest

/-- Trace projection: the font families selected, in order. -/
def fontFaces : List CairoOp → List String
  | [] => []
  | .selectFontFace f :: rest => f :: fontFaces rest
  | _ :: rest => fontFaces rest

/-- Trace projection: the drawn text strings with their device positions. -/
def showTexts : List CairoOp → List (String × (ℚ × ℚ))
  | [] => []
  | .showText t p :: rest => (t, p) :: showTexts rest
  | _ :: rest => showTexts rest

/-- Trace projection: the device quadrilaterals covered by paint calls. -/
def paintedQuads : List CairoOp → List (List (ℚ × ℚ))
  | [] => []
  | .paint q :: rest => q :: paintedQuads rest
  | _ :: rest => paintedQuads rest

/-- Axis-aligned bounding box (x, y, width, height) of a point list. -/
def bboxOf : List (ℚ × ℚ) → Option (ℚ × ℚ × ℚ × ℚ)
  | [] => none
  | p :: rest =>
    let xs := rest.map Prod.fst
    let ys := rest.map Prod.snd
    some (xs.foldl min p.1, ys.foldl min p.2,
      xs.foldl max p.1 - xs.foldl min p.1, ys.foldl max p.2 - ys.foldl min p.2)

/-- An abstract visual item: a rectangle drawn with a normalized color, the
common currency for comparing the two backends. -/
structure VisItem where
  rgb : ℚ × ℚ × ℚ
  x : ℚ
  y : ℚ
  w : ℚ
  h : ℚ
deriving DecidableEq

/-- Interpret a cairo trace into visual items: track the source color and
the accumulated path, and emit the path's bounding rectangle at each
stroke. -/
def cairoVisualAux : List CairoOp → (ℚ × ℚ × ℚ) → List (ℚ × ℚ) → List VisItem
  | [], _, _ => []
  | .setSourceRgb r g b :: rest, _, pts => cairoVisualAux rest (r, g, b) pts
  | .moveTo x y :: rest, c, pts => cairoVisualAux rest c (pts ++ [(x, y)])
  | .lineTo x y :: rest, c, pts => cairoVisualAux rest c (pts ++ [(x, y)])
  | .stroke :: rest, c, pts =>
    match bboxOf pts with
    | none => cairoVisualAux rest c []
    | some (x, y, w, h) => ⟨c, x, y, w, h⟩ :: cairoVisualAux rest c []
  | _ :: rest, c, pts => cairoVisualAux rest c pts

def cairoVisual (tr : List CairoOp) : List VisItem := cairoVisualAux tr (0, 0, 0) []

/-- Interpret a QPainter trace into visual items: track the pen color
normalized to the unit interval and emit each drawn rectangle. -/
def qpVisualAux : List QPainterOp → (ℚ × ℚ × ℚ) → List VisItem
  | [], _ => []
  | .setPen r g b _ :: rest, _ =>
    qpVisualAux rest ((r : ℚ) / 255, (g : ℚ) / 255, (b : ℚ) / 255)
  | .drawRect x y w h :: rest, c => ⟨c, x, y, w, h⟩ :: qpVisualAux rest c
  | _ :: rest, c => qpVisualAux rest c

def qpVisual (tr : List QPainterOp) : List VisItem := qpVisualAux tr (0, 0, 0)

/-- Normalized color triple of an element stroke or fill color. -/
def rgbOfColor (c : elements.Color) : ℚ × ℚ × ℚ :=
  ((c.value.1 : ℚ) / 255, (c.value.2.1 : ℚ) / 255, (c.value.2.2 : ℚ) / 255)

/-- The cairo trace a successfully stroked PathObject emits. -/
def cairoPathOps (p : PathObject) (c : elements.Color) : List CairoOp :=
  [.save,
   .setSourceRgb ((c.value.1 : ℚ) / 255) ((c.value.2.1 : ℚ) / 255) ((c.value.2.2 : ℚ) / 255),
   .setLineWidth (mmtopx p.line_width),
   .moveTo (mmtopx p.boundary.x) (mmtopx p.boundary.y),
   .lineTo (mmtopx p.boundary.x + mmtopx p.boundary.width) (mmtopx p.boundary.y),
   .lineTo (mmtopx p.boundary.x + mmtopx p.boundary.width) (mmtopx p.boundary.y + mmtopx p.boundary.height),
   .lineTo (mmtopx p.boundary.x) (mmtopx p.boundary.y + mmtopx p.boundary.height),
   .lineTo (mmtopx p.boundary.x) (mmtopx p.boundary.y),
   .stroke, .restore]

def cairoPathOpsOf (p : PathObject) : List CairoOp :=
  match p.stroke_color with
  | some c => cairoPathOps p c
  | none => []

/-- The QPainter trace a PathObject with a stroke color emits. -/
def qpPathOps (p : PathObject) (c : elements.Color) : List QPainterOp :=
  [.save,
   .setPen c.value.1 c.value.2.1 c.value.2.2 (ratToI32 (mmtopx p.line_width)),
   .drawRect (mmtopx p.boundary.x) (mmtopx p.boundary.y) (mmtopx p.boundary.width) (mmtopx p.boundary.height),
   .restore]

def qpPathOpsOf (p : PathObject) : List QPainterOp :=
  match p.stroke_color with
  | some c => qpPathOps p c
  | none => []

/-- The visual item a PathObject contributes on either backend. -/
def visOfPath (p : PathObject) : VisItem :=
  ⟨rgbOfColor (p.stroke_color.getD ⟨(0, 0, 0)⟩),
   mmtopx p.boundary.x, mmtopx p.boundary.y, mmtopx p.boundary.width, mmtopx p.boundary.height⟩

def pathEvents (ps : List PathObject) : List Event := ps.map Event.pathObject

/-- A failure oracle under which no backend call reports an error. -/
def flNone : FailOracle := fun _ => none

/-- A failure oracle under which exactly the stroke call reports an error. -/
def flStrokeFails : FailOracle := fun op =>
  match op with
  | .stroke => some ⟨1⟩
  | _ => none

def s0 : CairoSt := ⟨CairoState.initial, []⟩

def colRed : elements.Color := ⟨(255, 0, 0)⟩

def pRed : PathObject := ⟨⟨0, 0, 3, 2⟩, some colRed, 1⟩

def pNoColor : PathObject := ⟨⟨0, 0, 3, 2⟩, none, 1⟩

def p9 : PathObject := ⟨⟨1, 2, 3, 4⟩, some colRed, 1⟩

def tPlain : TextObject := ⟨⟨0, 0, 3, 2⟩, none, 1, 1, ⟨0, 0, "hi"⟩, none⟩

def ctIdentity : ct.Matrix := ⟨1, 0, 0, 1, 0, 0⟩

def t6id : TextObject := ⟨⟨1, 1, 3, 2⟩, some colRed, 1, 1, ⟨1, 1, "hello"⟩, some ctIdentity⟩

def doc0 : Document := ⟨⟨⟨[]⟩⟩, ⟨"", ⟨[]⟩⟩⟩

def ofd0 : Ofd := ⟨⟨⟨""⟩⟩, []⟩

def docFonts : Document :=
  ⟨⟨⟨[⟨3, "SimSun"⟩, ⟨5, "Arial"⟩, ⟨5, "Kai"⟩]⟩⟩, ⟨"", ⟨[]⟩⟩⟩

def t5 : TextObject := ⟨⟨0, 0, 3, 2⟩, some colRed, 5, 1, ⟨0, 0, "x"⟩, none⟩

def docRes7 : Document := ⟨⟨⟨[]⟩⟩, ⟨"Res", ⟨[⟨7, "img.png"⟩]⟩⟩⟩

def imgC2 : ImageObject := ⟨⟨0, 0, 3, 2⟩, 7⟩

def img8 : ImageObject := ⟨⟨2, 3, 4, 5⟩, 7⟩

def img9 : ImageObject := ⟨⟨0, 0, 3, 2⟩, 9⟩

def ofdMissing : Ofd := ⟨⟨⟨"Doc_0/Document.xml"⟩⟩, []⟩

def ofdInvalid : Ofd := ⟨⟨⟨"Doc_0/Document.xml"⟩⟩, [("Doc_0/Res/img.png", .invalid)]⟩

def ofdPng : Ofd := ⟨⟨⟨"Doc_0/Document.xml"⟩⟩, [("Doc_0/Res/img.png", .png 4 4)]⟩

def docFlat : Document := ⟨⟨⟨[]⟩⟩, ⟨"", ⟨[⟨7, "img.png"⟩]⟩⟩⟩

def ofdFlat : Ofd := ⟨⟨⟨"x"⟩⟩, [("img.png", .png 4 4)]⟩

def w4tw : List CairoOp :=
  (render_page_block_to_cairo flStrokeFails ofd0 doc0 [Event.textObject tPlain] s0).1

def w4sw : CairoSt :=
  (render_page_block_to_cairo flStrokeFails ofd0 doc0 [Event.textObject tPlain] s0).2.1

def w4tb : List CairoOp :=
  (renderEventCairo flStrokeFails ofd0 doc0 (Event.pathObject pRed) w4sw).1

def w4sb : CairoSt :=
  (renderEventCairo flStrokeFails ofd0 doc0 (Event.pathObject pRed) w4sw).2.1

theorem comp_identityM (m : CairoMatrix) : m.comp CairoMatrix.identityM = m := by
  cases m
  simp [CairoMatrix.comp, CairoMatrix.identityM]

/-- C10: a PathObject whose optional stroke color is absent makes both
render operations panic on the unconditional unwrap of the stroke color
(render.rs 62-63 and 92-93); rendering a PathObject is total only when a
stroke color is present. -/
theorem c10_missing_stroke_color_panics (fl : FailOracle) (p : PathObject) (s : CairoSt)
    (h : p.stroke_color = none) (hs : fl .save = none) :
    (PathObject.render_to_cairo_context fl p s).2.2 = .panic unwrapNoneMsg ∧
    (PathObject.render_to_qpainter p).2 = .panic unwrapNoneMsg := by
  simp [PathObject.render_to_cairo_context, PathObject.render_to_qpainter, opSave, hs, h]

theorem c10_witness :
    pNoColor.stroke_color = none ∧ flNone .save = none ∧
    ((PathObject.render_to_cairo_context flNone pNoColor s0).2.2 = .panic unwrapNoneMsg ∧
     (PathObject.render_to_qpainter pNoColor).2 = .panic unwrapNoneMsg) :=
  ⟨rfl, rfl, c10_missing_stroke_color_panics flNone pNoColor s0 rfl rfl⟩

/-- C1: evaluation at a concrete failing input showing the invariant broken
in the code: when the backend stroke call reports an error, PathObject
rendering returns that error without the matching restore, leaving the
saved state on the stack (one save, zero restores). -/
theorem c1_stroke_error_leaves_unbalanced_save :
    (PathObject.render_to_cairo_context flStrokeFails pRed s0).2.2 = .err ⟨1⟩ ∧
    (PathObject.render_to_cairo_context flStrokeFails pRed s0).2.1.stack.length
      = s0.stack.length + 1 ∧
    (PathObject.render_to_cairo_context flStrokeFails pRed s0).1.count .save = 1 ∧
    (PathObject.render_to_cairo_context flStrokeFails pRed s0).1.count .restore = 0 := by
  decide

/-- C2: counterexample to returning ArchiveEntryMissing or DecodeError to
the caller: with the resource id present in the multimedia table, a missing
archive entry and an undecodable entry both make the render panic on an
unwrap, not return an error. -/
theorem c2_counterexample_panics_instead_of_error :
    (ImageObject.render_to_cairo_context flNone ofdMissing docRes7 imgC2 s0).2.2
      = .panic unwrapErrMsg ∧
    (ImageObject.render_to_cairo_context flNone ofdInvalid docRes7 imgC2 s0).2.2
      = .panic unwrapErrMsg := by
  decide

theorem renderImageLoop_first_match_panics (fl : FailOracle) (img : ImageObject)
    (boundary : ct.Box) (ofd : Ofd) (doc : Document) :
    ∀ (ms : List MultiMedia) (s : CairoSt) (r : MultiMedia),
      ms.find? (fun m => m.id == img.resource_id) = some r →
      (lookupEntry ofd.zip_archive (resPathOf ofd doc r) = none ∨
       lookupEntry ofd.zip_archive (resPathOf ofd doc r) = some .invalid) →
      renderImageLoop fl img boundary ofd doc ms s = ([], s, .panic unwrapErrMsg) := by
  intro ms
  induction ms with
  | nil => intro s r hfind _; simp at hfind
  | cons m rest ih =>
    intro s r hfind hmiss
    by_cases hm : m.id = img.resource_id
    · rw [List.find?_cons_of_pos _ (by simpa using hm)] at hfind
      obtain rfl : m = r := by simpa using hfind
      rcases hmiss with hmiss | hmiss <;>
        simp [renderImageLoop, hm, hmiss]
    · rw [List.find?_cons_of_neg _ (by simpa using hm)] at hfind
      simpa [renderImageLoop, hm] using ih s r hfind hmiss

/-- C2: amended claim: with the resource id present in the multimedia
table, rendering panics on an unwrap (aborting via unwind rather than
returning an error value) when the first matching entry's resolved joined
path does not exist in the archive, and likewise when the read bytes cannot
be decoded as PNG. -/
theorem c2_present_id_missing_entry_panics (fl : FailOracle) (ofd : Ofd)
    (doc : Document) (img : ImageObject) (s : CairoSt) (r : MultiMedia)
    (hs : fl .save = none)
    (hfind : doc.doc_res.multi_medias.multi_media.find?
      (fun m => m.id == img.resource_id) = some r)
    (hmiss : lookupEntry ofd.zip_archive (resPathOf ofd doc r) = none ∨
      lookupEntry ofd.zip_archive (resPathOf ofd doc r) = some .invalid) :
    (ImageObject.render_to_cairo_context fl ofd doc img s).2.2 = .panic unwrapErrMsg := by
  simp [ImageObject.render_to_cairo_context, opSave, hs,
    renderImageLoop_first_match_panics fl img _ ofd doc _ _ r hfind hmiss]

theorem c2_witness :
    flNone .save = none ∧
    docRes7.doc_res.multi_medias.multi_media.find?
      (fun m => m.id == imgC2.resource_id) = some ⟨7, "img.png"⟩ ∧
    lookupEntry ofdMissing.zip_archive (resPathOf ofdMissing docRes7 ⟨7, "img.png"⟩) = none ∧
    (ImageObject.render_to_cairo_context flNone ofdMissing docRes7 imgC2 s0).2.2
      = .panic unwrapErrMsg :=
  ⟨rfl, rfl, rfl,
    c2_present_id_missing_entry_panics flNone ofdMissing docRes7 imgC2 s0
      ⟨7, "img.png"⟩ rfl rfl (Or.inl rfl)⟩

theorem renderImageLoop_no_match (fl : FailOracle) (img : ImageObject)
    (boundary : ct.Box) (ofd : Ofd) (doc : Document) :
    ∀ (ms : List MultiMedia) (s : CairoSt),
      (∀ m ∈ ms, m.id ≠ img.resource_id) →
      renderImageLoop fl img boundary ofd doc ms s = ([], s, .ok) := by
  intro ms
  induction ms with
  | nil => intro s _; simp [renderImageLoop]
  | cons m rest ih =>
    intro s habs
    have hm : m.id ≠ img.resource_id := habs m (by simp)
    have hrest : ∀ m ∈ rest, m.id ≠ img.resource_id := fun x hx => habs x (by simp [hx])
    simp [renderImageLoop, hm, ih s hrest]

/-- C7: an ImageObject whose resource id is absent from the document's
multimedia table renders nothing (the trace is just the save/restore
bracket with no drawing call), reports no error, and returns success. -/
theorem c7_absent_image_id_renders_nothing (fl : FailOracle) (ofd : Ofd)
    (doc : Document) (img : ImageObject) (s : CairoSt)
    (habs : ∀ m ∈ doc.doc_res.multi_medias.multi_media, m.id ≠ img.resource_id)
    (hs : fl .save = none) (hr : fl .restore = none) :
    ImageObject.render_to_cairo_context fl ofd doc img s = ([.save, .restore], s, .ok) := by
  simp [ImageObject.render_to_cairo_context, opSave, hs, opRestore, hr,
    renderImageLoop_no_match fl img _ ofd doc _ _ habs]

theorem c7_witness :
    (∀ m ∈ docRes7.doc_res.multi_medias.multi_media, m.id ≠ img9.resource_id) ∧
    flNone .save = none ∧ flNone .restore = none ∧
    ImageObject.render_to_cairo_context flNone ofd0 docRes7 img9 s0
      = ([.save, .restore], s0, .ok) :=
  ⟨by decide, rfl, rfl,
    c7_absent_image_id_renders_nothing flNone ofd0 docRes7 img9 s0 (by decide) rfl rfl⟩

/-- C4: the vector-canvas walk renders events strictly in sequence order and
the first child render that returns an error aborts the rest of the walk and
propagates as the walk's result: the walk's trace is exactly the traces of
the preceding siblings followed by the failing child's trace, the final
state is the failing child's, and no later sibling contributes. -/
theorem c4_walk_fail_fast (fl : FailOracle) (ofd : Ofd) (doc : Document)
    (as cs : List Event) (b : Event) (e : CairoError) (tb : List CairoOp) (sb : CairoSt) :
    ∀ (s : CairoSt) (tw : List CairoOp) (sw : CairoSt),
      render_page_block_to_cairo fl ofd doc as s = (tw, sw, .ok) →
      renderEventCairo fl ofd doc b sw = (tb, sb, .err e) →
      render_page_block_to_cairo fl ofd doc (as ++ b :: cs) s = (tw ++ tb, sb, .err e) := by
  induction as with
  | nil =>
    intro s tw sw h1 h2
    obtain ⟨rfl, rfl, -⟩ : tw = [] ∧ s = sw ∧ True := by
      simpa [render_page_block_to_cairo] using h1
    simp [render_page_block_to_cairo, h2]
  | cons a rest ih =>
    intro s tw sw h1 h2
    rcases hA : renderEventCairo fl ofd doc a s with ⟨ta, sa, ra⟩
    cases ra with
    | ok =>
      rcases hW : render_page_block_to_cairo fl ofd doc rest sa with ⟨t2, s2, r2⟩
      rw [render_page_block_to_cairo] at h1
      simp only [hA, hW] at h1
      obtain ⟨rfl, rfl, rfl⟩ : ta ++ t2 = tw ∧ s2 = sw ∧ r2 = .ok := by
        simpa using h1
      rw [List.cons_append, render_page_block_to_cairo]
      simp only [hA, ih sa t2 s2 hW h2, List.append_assoc]
    | err er =>
      rw [render_page_block_to_cairo, hA] at h1
      simp at h1
    | panic m =>
      rw [render_page_block_to_cairo, hA] at h1
      simp at h1

theorem c4_witness :
    render_page_block_to_cairo flStrokeFails ofd0 doc0 [Event.textObject tPlain] s0
      = (w4tw, w4sw, .ok) ∧
    renderEventCairo flStrokeFails ofd0 doc0 (Event.pathObject pRed) w4sw
      = (w4tb, w4sb, .err ⟨1⟩) ∧
    render_page_block_to_cairo flStrokeFails ofd0 doc0
      ([Event.textObject tPlain] ++ Event.pathObject pRed :: [Event.textObject tPlain]) s0
      = (w4tw ++ w4tb, w4sb, .err ⟨1⟩) :=
  ⟨rfl, rfl,
    c4_walk_fail_fast flStrokeFails ofd0 doc0 [Event.textObject tPlain]
      [Event.textObject tPlain] (Event.pathObject pRed) ⟨1⟩ w4tb w4sb s0 w4tw w4sw rfl rfl⟩

theorem showTextAndRestore_ok (fl : FailOracle) (text : String) (gs g : CairoState)
    (rest : List CairoState) (hok : ∀ op, fl op = none) :
    showTextAndRestore fl text ⟨gs, g :: rest⟩
      = ([CairoOp.moveTo 0 0, CairoOp.showText text (gs.ctm.apply (0, 0)),
          CairoOp.restore], ⟨g, rest⟩, .ok) := by
  simp [showTextAndRestore, opMoveTo, opShowText, opRestore, hok]

theorem fontFaces_append (a b : List CairoOp) :
    fontFaces (a ++ b) = fontFaces a ++ fontFaces b := by
  induction a with
  | nil => simp [fontFaces]
  | cons op rest ih => cases op <;> simp [fontFaces, ih]

theorem showTexts_append (a b : List CairoOp) :
    showTexts (a ++ b) = showTexts a ++ showTexts b := by
  induction a with
  | nil => simp [showTexts]
  | cons op rest ih => cases op <;> simp [showTexts, ih]

theorem selectFontLoop_stack (fid : ℕ) : ∀ (fonts : List elements.Font) (s : CairoSt),
    (selectFontLoop fonts fid s).2.stack = s.stack := by
  intro fonts
  induction fonts with
  | nil => intro s; simp [selectFontLoop]
  | cons f rest ih =>
    intro s
    by_cases h : f.id = fid
    · simp [selectFontLoop, h, opSelectFontFace]
    · simp [selectFontLoop, h, ih]

theorem fontFaces_selectFontLoop (fid : ℕ) : ∀ (fonts : List elements.Font) (s : CairoSt),
    fontFaces (selectFontLoop fonts fid s).1
      = ((fonts.find? (fun f => f.id == fid)).map (fun f => f.family_name)).toList := by
  intro fonts
  induction fonts with
  | nil => intro s; simp [selectFontLoop, fontFaces]
  | cons f rest ih =>
    intro s
    by_cases h : f.id = fid
    · rw [List.find?_cons_of_pos _ (by simpa using h)]
      simp [selectFontLoop, h, opSelectFontFace, fontFaces]
    · rw [List.find?_cons_of_neg _ (by simpa using h)]
      simp [selectFontLoop, h, ih]

/-- C5: font resolution for a TextObject is a linear scan of the document's
font table selecting the family of the first entry with matching id (the
selected faces of the trace are exactly the optional first match); when no
entry matches, no face is selected (the backend default family stays) and
rendering still returns success, raising no error. -/
theorem c5_font_resolution (fl : FailOracle) (doc : Document) (t : TextObject) (s : CairoSt)
    (hok : ∀ op, fl op = none) :
    (TextObject.render_to_cairo_context fl doc t s).2.2 = .ok ∧
    fontFaces (TextObject.render_to_cairo_context fl doc t s).1
      = ((doc.public_res.fonts.font.find? (fun f => f.id == t.font)).map
          (fun f => f.family_name)).toList := by
  rcases hF : selectFontLoop doc.public_res.fonts.font t.font ⟨s.gs, s.gs :: s.stack⟩
    with ⟨t2, s2⟩
  have hfaces : fontFaces t2
      = ((doc.public_res.fonts.font.find? (fun f => f.id == t.font)).map
          (fun f => f.family_name)).toList := by
    have := fontFaces_selectFontLoop t.font doc.public_res.fonts.font
      ⟨s.gs, s.gs :: s.stack⟩
    rwa [hF] at this
  have hstack : s2.stack = s.gs :: s.stack := by
    have := selectFontLoop_stack t.font doc.public_res.fonts.font
      ⟨s.gs, s.gs :: s.stack⟩
    rwa [hF] at this
  cases hctm : t.ctm with
  | none =>
    simp [TextObject.render_to_cairo_context, opSave, opSetFontSize, opSetSourceRgb,
      opTranslate, hok, hctm, hF, hstack, showTextAndRestore_ok,
      fontFaces_append, fontFaces, hfaces]
  | some m =>
    simp [TextObject.render_to_cairo_context, opSave, opSetFontSize, opSetSourceRgb,
      opTranslate, opTransform, hok, hctm, hF, hstack, showTextAndRestore_ok,
      fontFaces_append, fontFaces, hfaces]

theorem c5_witness :
    (∀ op, flNone op = none) ∧
    ((TextObject.render_to_cairo_context flNone docFonts t5 s0).2.2 = .ok ∧
     fontFaces (TextObject.render_to_cairo_context flNone docFonts t5 s0).1
       = ((docFonts.public_res.fonts.font.find? (fun f => f.id == t5.font)).map
           (fun f => f.family_name)).toList) :=
  ⟨fun _ => rfl, c5_font_resolution flNone docFonts t5 s0 (fun _ => rfl)⟩

/-- C6: for a TextObject the translation to box top-left plus text offset is
applied first and the optional CTM composed after it; with an identity CTM
the render result, the final context state, and the drawn text strings with
their device positions are the same as with no CTM at all. -/
theorem c6_identity_ctm_noop (fl : FailOracle) (doc : Document) (t : TextObject) (s : CairoSt)
    (h : t.ctm = some ctIdentity) :
    (TextObject.render_to_cairo_context fl doc t s).2.2
      = (TextObject.render_to_cairo_context fl doc { t with ctm := none } s).2.2 ∧
    (TextObject.render_to_cairo_context fl doc t s).2.1
      = (TextObject.render_to_cairo_context fl doc { t with ctm := none } s).2.1 ∧
    showTexts (TextObject.render_to_cairo_context fl doc t s).1
      = showTexts (TextObject.render_to_cairo_context fl doc { t with ctm := none } s).1 := by
  have hid : cairoMatrixOfCt (ct.Matrix.fromElem ctIdentity) = CairoMatrix.identityM := rfl
  cases hsv : fl .save with
  | some e => simp [TextObject.render_to_cairo_context, opSave, hsv]
  | none =>
    rcases hF : selectFontLoop doc.public_res.fonts.font t.font ⟨s.gs, s.gs :: s.stack⟩
      with ⟨t2, s2⟩
    simp only [TextObject.render_to_cairo_context, opSave, hsv, h, hF,
      opSetFontSize, opSetSourceRgb, opTranslate, opTransform, hid, comp_identityM]
    simp [showTexts_append, showTexts]

theorem c6_witness :
    t6id.ctm = some ctIdentity ∧
    ((TextObject.render_to_cairo_context flNone doc0 t6id s0).2.2
       = (TextObject.render_to_cairo_context flNone doc0 { t6id with ctm := none } s0).2.2 ∧
     (TextObject.render_to_cairo_context flNone doc0 t6id s0).2.1
       = (TextObject.render_to_cairo_context flNone doc0 { t6id with ctm := none } s0).2.1 ∧
     showTexts (TextObject.render_to_cairo_context flNone doc0 t6id s0).1
       = showTexts (TextObject.render_to_cairo_context flNone doc0
           { t6id with ctm := none } s0).1) :=
  ⟨rfl, c6_identity_ctm_noop flNone doc0 t6id s0 rfl⟩

theorem bboxOf_rect (x y w h : ℚ) (hw : 0 ≤ w) (hh : 0 ≤ h) :
    bboxOf [(x, y), (x + w, y), (x + w, y + h), (x, y + h), (x, y)]
      = some (x, y, w, h) := by
  have h1 : min x (x + w) = x := min_eq_left (by linarith)
  have h2 : max x (x + w) = x + w := max_eq_right (by linarith)
  have h2l : max (x + w) x = x + w := max_eq_left (by linarith)
  have h3 : min y (y + h) = y := min_eq_left (by linarith)
  have h4 : max y (y + h) = y + h := max_eq_right (by linarith)
  have h4l : max (y + h) y = y + h := max_eq_left (by linarith)
  simp [bboxOf, List.foldl, h1, h2, h2l, h3, h4, h4l, min_self, max_self]

/-- C9: a PathObject's traced path is the boundary box's four-corner closed
rectangle in pixel coordinates, traced clockwise from the top-left corner,
the first and last traced points coincide, and its bounding pixel box is
exactly the pixel conversion of the boundary box. -/
theorem c9_path_traced_rectangle (fl : FailOracle) (p : PathObject) (s : CairoSt)
    (c : elements.Color) (hc : p.stroke_color = some c) (hs : fl .save = none)
    (hw : 0 ≤ p.boundary.width) (hh : 0 ≤ p.boundary.height) :
    pathPts (PathObject.render_to_cairo_context fl p s).1
      = [(mmtopx p.boundary.x, mmtopx p.boundary.y),
         (mmtopx p.boundary.x + mmtopx p.boundary.width, mmtopx p.boundary.y),
         (mmtopx p.boundary.x + mmtopx p.boundary.width,
          mmtopx p.boundary.y + mmtopx p.boundary.height),
         (mmtopx p.boundary.x, mmtopx p.boundary.y + mmtopx p.boundary.height),
         (mmtopx p.boundary.x, mmtopx p.boundary.y)] ∧
    (pathPts (PathObject.render_to_cairo_context fl p s).1).head?
      = (pathPts (PathObject.render_to_cairo_context fl p s).1).getLast? ∧
    bboxOf (pathPts (PathObject.render_to_cairo_context fl p s).1)
      = some ((ct.Box.fromElem p.boundary).to_pixel.x,
          (ct.Box.fromElem p.boundary).to_pixel.y,
          (ct.Box.fromElem p.boundary).to_pixel.width,
          (ct.Box.fromElem p.boundary).to_pixel.height) := by
  have hw' : 0 ≤ mmtopx p.boundary.width := by
    unfold mmtopx; exact mul_nonneg (by norm_num) hw
  have hh' : 0 ≤ mmtopx p.boundary.height := by
    unfold mmtopx; exact mul_nonneg (by norm_num) hh
  have hpts : pathPts (PathObject.render_to_cairo_context fl p s).1
      = [(mmtopx p.boundary.x, mmtopx p.boundary.y),
         (mmtopx p.boundary.x + mmtopx p.boundary.width, mmtopx p.boundary.y),
         (mmtopx p.boundary.x + mmtopx p.boundary.width,
          mmtopx p.boundary.y + mmtopx p.boundary.height),
         (mmtopx p.boundary.x, mmtopx p.boundary.y + mmtopx p.boundary.height),
         (mmtopx p.boundary.x, mmtopx p.boundary.y)] := by
    cases hst : fl .stroke with
    | some e =>
      simp [PathObject.render_to_cairo_context, opSave, hs, hc, hst, ct.Box.fromElem,
        ct.Box.to_pixel, ct.Color.fromValue, opSetSourceRgb, opSetLineWidth, opMoveTo,
        opLineTo, opStroke, pathPts]
    | none =>
      cases hrs : fl .restore with
      | some e =>
        simp [PathObject.render_to_cairo_context, opSave, hs, hc, hst, hrs,
          ct.Box.fromElem, ct.Box.to_pixel, ct.Color.fromValue, opSetSourceRgb,
          opSetLineWidth, opMoveTo, opLineTo, opStroke, opRestore, pathPts]
      | none =>
        simp [PathObject.render_to_cairo_context, opSave, hs, hc, hst, hrs,
          ct.Box.fromElem, ct.Box.to_pixel, ct.Color.fromValue, opSetSourceRgb,
          opSetLineWidth, opMoveTo, opLineTo, opStroke, opRestore, pathPts]
  refine ⟨hpts, ?_, ?_⟩
  · rw [hpts]; rfl
  · rw [hpts, bboxOf_rect _ _ _ _ hw' hh']
    simp [ct.Box.fromElem, ct.Box.to_pixel]

theorem c9_witness :
    p9.stroke_color = some colRed ∧ flNone .save = none ∧
    (0 : ℚ) ≤ p9.boundary.width ∧ (0 : ℚ) ≤ p9.boundary.height ∧
    (pathPts (PathObject.render_to_cairo_context flNone p9 s0).1
      = [(mmtopx p9.boundary.x, mmtopx p9.boundary.y),
         (mmtopx p9.boundary.x + mmtopx p9.boundary.width, mmtopx p9.boundary.y),
         (mmtopx p9.boundary.x + mmtopx p9.boundary.width,
          mmtopx p9.boundary.y + mmtopx p9.boundary.height),
         (mmtopx p9.boundary.x, mmtopx p9.boundary.y + mmtopx p9.boundary.height),
         (mmtopx p9.boundary.x, mmtopx p9.boundary.y)] ∧
     (pathPts (PathObject.render_to_cairo_context flNone p9 s0).1).head?
       = (pathPts (PathObject.render_to_cairo_context flNone p9 s0).1).getLast? ∧
     bboxOf (pathPts (PathObject.render_to_cairo_context flNone p9 s0).1)
       = some ((ct.Box.fromElem p9.boundary).to_pixel.x,
           (ct.Box.fromElem p9.boundary).to_pixel.y,
           (ct.Box.fromElem p9.boundary).to_pixel.width,
           (ct.Box.fromElem p9.boundary).to_pixel.height)) :=
  ⟨rfl, rfl, zero_le_three, zero_le_four,
    c9_path_traced_rectangle flNone p9 s0 colRed rfl rfl zero_le_three zero_le_four⟩

/-- C8: evaluation of the image render at a concrete failing input: the
surface is scaled by the independent factors boundary.width/surface.width
and boundary.height/surface.height, so its painted device footprint has
exactly the pixel box's dimensions (16 by 20), but because the source origin
(boundary x, y) is interpreted in the already-scaled user space, the surface
is painted with device origin (32, 60) instead of the pixel box origin
(8, 12). -/
theorem c8_image_painted_at_scaled_origin :
    paintedQuads (ImageObject.render_to_cairo_context flNone ofdFlat docFlat img8 s0).1
      = [[(32, 60), (48, 60), (48, 80), (32, 80)]] ∧
    (ct.Box.fromElem img8.boundary).to_pixel = ⟨8, 12, 16, 20⟩ ∧
    ((32 : ℚ), (60 : ℚ)) ≠ ((8 : ℚ), (12 : ℚ)) := by
  refine ⟨?_, ?_, by norm_num⟩
  · norm_num [ImageObject.render_to_cairo_context, renderImageLoop, opSave, opScale,
      opSetSourceSurface, opPaint, opRestore, flNone, ofdFlat, docFlat, img8, s0,
      resPathOf, pathParent, pathJoin, dropLastComponent, lookupEntry,
      ct.Box.fromElem, ct.Box.to_pixel, mmtopx, CairoState.initial,
      CairoMatrix.comp, CairoMatrix.identityM, CairoMatrix.scaleM, CairoMatrix.apply,
      paintedQuads]
  · norm_num [ct.Box.fromElem, ct.Box.to_pixel, img8, mmtopx]

/-- C3: counterexample to backend output parity: a PageBlock containing one
stroked PathObject draws a red rectangle on the vector-canvas backend, but
PageBlock::render_to_qpainter only logs, so the QPainter backend emits no
drawing operation at all for the same node. -/
theorem c3_counterexample_pageblock_qpainter_noop :
    renderEventQP (Event.pageBlock [Event.pathObject pRed]) = ([], .ok) ∧
    cairoVisual (renderEventCairo flNone ofd0 doc0
      (Event.pageBlock [Event.pathObject pRed]) s0).1
      = [⟨(1, 0, 0), 0, 0, 12, 8⟩] ∧
    qpVisual (renderEventQP (Event.pageBlock [Event.pathObject pRed])).1 = [] := by
  refine ⟨rfl, ?_, rfl⟩
  norm_num [renderEventCairo, render_page_block_to_cairo, PathObject.render_to_cairo_context,
    opSave, opSetSourceRgb, opSetLineWidth, opMoveTo, opLineTo, opStroke, opRestore,
    flNone, pRed, colRed, s0, ct.Box.fromElem, ct.Box.to_pixel, ct.Color.fromValue,
    mmtopx, CairoState.initial, cairoVisual, cairoVisualAux, bboxOf, min_def, max_def]

theorem render_path_cairo_ok (fl : FailOracle) (p : PathObject) (s : CairoSt)
    (c : elements.Color) (hc : p.stroke_color = some c) (hsv : fl .save = none)
    (hst : fl .stroke = none) (hrs : fl .restore = none) :
    PathObject.render_to_cairo_context fl p s = (cairoPathOps p c, s, .ok) := by
  simp [PathObject.render_to_cairo_context, cairoPathOps, opSave, hc, hsv, hst, hrs,
    opSetSourceRgb, opSetLineWidth, opMoveTo, opLineTo, opStroke, opRestore,
    ct.Box.fromElem, ct.Box.to_pixel, ct.Color.fromValue]

theorem render_path_qp_ok (p : PathObject) (c : elements.Color)
    (hc : p.stroke_color = some c) :
    PathObject.render_to_qpainter p = (qpPathOps p c, .ok) := by
  simp [PathObject.render_to_qpainter, qpPathOps, hc, ct.Box.fromElem, ct.Box.to_pixel,
    ct.Color.fromValue]

theorem walk_paths_cairo (fl : FailOracle) (ofd : Ofd) (doc : Document)
    (hsv : fl .save = none) (hst : fl .stroke = none) (hrs : fl .restore = none) :
    ∀ (ps : List PathObject) (s : CairoSt),
      (∀ p ∈ ps, p.stroke_color.isSome = true) →
      render_page_block_to_cairo fl ofd doc (pathEvents ps) s
        = (ps.flatMap cairoPathOpsOf, s, .ok) := by
  intro ps
  induction ps with
  | nil => intro s _; simp [pathEvents, render_page_block_to_cairo]
  | cons p rest ih =>
    intro s hcol
    rcases Option.isSome_iff_exists.mp (hcol p (by simp)) with ⟨c, hc⟩
    have hrest : ∀ q ∈ rest, q.stroke_color.isSome = true :=
      fun q hq => hcol q (by simp [hq])
    rw [pathEvents, List.map_cons]
    rw [render_page_block_to_cairo]
    simp only [renderEventCairo, render_path_cairo_ok fl p s c hc hsv hst hrs]
    have ihs := ih s hrest
    rw [pathEvents] at ihs
    simp [ihs, cairoPathOpsOf, hc]

theorem walk_paths_qp :
    ∀ ps : List PathObject,
      (∀ p ∈ ps, p.stroke_color.isSome = true) →
      render_page_block_to_qpainter (pathEvents ps) = (ps.flatMap qpPathOpsOf, .ok) := by
  intro ps
  induction ps with
  | nil => simp [pathEvents, render_page_block_to_qpainter]
  | cons p rest ih =>
    intro hcol
    rcases Option.isSome_iff_exists.mp (hcol p (by simp)) with ⟨c, hc⟩
    have hrest : ∀ q ∈ rest, q.stroke_color.isSome = true :=
      fun q hq => hcol q (by simp [hq])
    rw [pathEvents, List.map_cons]
    rw [render_page_block_to_qpainter]
    simp only [renderEventQP, render_path_qp_ok p c hc]
    have ihs := ih hrest
    rw [pathEvents] at ihs
    simp [ihs, qpPathOpsOf, hc]

theorem cairoVisualAux_paths :
    ∀ (ps : List PathObject) (c0 : ℚ × ℚ × ℚ),
      (∀ p ∈ ps, p.stroke_color.isSome = true) →
      (∀ p ∈ ps, 0 ≤ p.boundary.width ∧ 0 ≤ p.boundary.height) →
      cairoVisualAux (ps.flatMap cairoPathOpsOf) c0 [] = ps.map visOfPath := by
  intro ps
  induction ps with
  | nil => intro c0 _ _; simp [cairoVisualAux]
  | cons p rest ih =>
    intro c0 hcol hdim
    rcases Option.isSome_iff_exists.mp (hcol p (by simp)) with ⟨c, hc⟩
    have hrest : ∀ q ∈ rest, q.stroke_color.isSome = true :=
      fun q hq => hcol q (by simp [hq])
    have hdrest : ∀ q ∈ rest, 0 ≤ q.boundary.width ∧ 0 ≤ q.boundary.height :=
      fun q hq => hdim q (by simp [hq])
    have hw' : 0 ≤ mmtopx p.boundary.width := by
      unfold mmtopx; exact mul_nonneg (by norm_num) (hdim p (by simp)).1
    have hh' : 0 ≤ mmtopx p.boundary.height := by
      unfold mmtopx; exact mul_nonneg (by norm_num) (hdim p (by simp)).2
    rw [List.flatMap_cons, cairoPathOpsOf, hc]
    simp only [cairoPathOps, List.cons_append, List.nil_append, cairoVisualAux]
    rw [bboxOf_rect _ _ _ _ hw' hh']
    simp [ih _ hrest hdrest, visOfPath, hc, rgbOfColor]

theorem qpVisualAux_paths :
    ∀ (ps : List PathObject) (c0 : ℚ × ℚ × ℚ),
      (∀ p ∈ ps, p.stroke_color.isSome = true) →
      qpVisualAux (ps.flatMap qpPathOpsOf) c0 = ps.map visOfPath := by
  intro ps
  induction ps with
  | nil => intro c0 _; simp [qpVisualAux]
  | cons p rest ih =>
    intro c0 hcol
    rcases Option.isSome_iff_exists.mp (hcol p (by simp)) with ⟨c, hc⟩
    have hrest : ∀ q ∈ rest, q.stroke_color.isSome = true :=
      fun q hq => hcol q (by simp [hq])
    rw [List.flatMap_cons, qpPathOpsOf, hc]
    simp only [qpPathOps, List.cons_append, List.nil_append, qpVisualAux]
    simp [ih _ hrest, visOfPath, hc, rgbOfColor]

/-- C3 amended: the output-parity contract holds for Page and for the
PathObject node type (and the vector-canvas walk renders children in order
on both backends), but TextObject, ImageObject and PageBlock are no-ops on
the QPainter backend, so parity holds only for content whose events are all
PathObjects: for such a page both backends succeed and produce exactly the
same visual items (the same pixel rectangles with the same colors, in the
same order). -/
theorem c3_path_only_backend_parity (fl : FailOracle) (ofd : Ofd) (doc : Document)
    (ps : List PathObject) (s : CairoSt)
    (hsv : fl .save = none) (hst : fl .stroke = none) (hrs : fl .restore = none)
    (hcol : ∀ p ∈ ps, p.stroke_color.isSome = true)
    (hdim : ∀ p ∈ ps, 0 ≤ p.boundary.width ∧ 0 ≤ p.boundary.height) :
    (Page.render_to_cairo_context fl ofd doc ⟨⟨⟨pathEvents ps⟩⟩⟩ s).2.2 = .ok ∧
    (Page.render_to_qpainter ⟨⟨⟨pathEvents ps⟩⟩⟩).2 = .ok ∧
    cairoVisual (Page.render_to_cairo_context fl ofd doc ⟨⟨⟨pathEvents ps⟩⟩⟩ s).1
      = qpVisual (Page.render_to_qpainter ⟨⟨⟨pathEvents ps⟩⟩⟩).1 ∧
    cairoVisual (Page.render_to_cairo_context fl ofd doc ⟨⟨⟨pathEvents ps⟩⟩⟩ s).1
      = ps.map visOfPath := by
  have hcw := walk_paths_cairo fl ofd doc hsv hst hrs ps s hcol
  have hqw := walk_paths_qp ps hcol
  have hcv := cairoVisualAux_paths ps (0, 0, 0) hcol hdim
  have hqv := qpVisualAux_paths ps (0, 0, 0) hcol
  simp only [Page.render_to_cairo_context, Page.render_to_qpainter, hcw, hqw,
    cairoVisual, qpVisual]
  exact ⟨trivial, trivial, hcv.trans hqv.symm, hcv⟩

theorem c3_witness :
    flNone .save = none ∧ flNone .stroke = none ∧ flNone .restore = none ∧
    (∀ p ∈ [pRed, p9], p.stroke_color.isSome = true) ∧
    (∀ p ∈ [pRed, p9], 0 ≤ p.boundary.width ∧ 0 ≤ p.boundary.height) ∧
    ((Page.render_to_cairo_context flNone ofd0 doc0 ⟨⟨⟨pathEvents [pRed, p9]⟩⟩⟩ s0).2.2
       = .ok ∧
     (Page.render_to_qpainter ⟨⟨⟨pathEvents [pRed, p9]⟩⟩⟩).2 = .ok ∧
     cairoVisual (Page.render_to_cairo_context flNone ofd0 doc0
         ⟨⟨⟨pathEvents [pRed, p9]⟩⟩⟩ s0).1
       = qpVisual (Page.render_to_qpainter ⟨⟨⟨pathEvents [pRed, p9]⟩⟩⟩).1 ∧
     cairoVisual (Page.render_to_cairo_context flNone ofd0 doc0
         ⟨⟨⟨pathEvents [pRed, p9]⟩⟩⟩ s0).1
       = [pRed, p9].map visOfPath) :=
  ⟨rfl, rfl, rfl, by decide,
    by
      intro p hp
      simp only [List.mem_cons, List.not_mem_nil, or_false] at hp
      rcases hp with rfl | rfl
      · exact ⟨zero_le_three, zero_le_two⟩
      · exact ⟨zero_le_three, zero_le_four⟩,
    c3_path_only_backend_parity flNone ofd0 doc0 [pRed, p9] s0 rfl rfl rfl (by decide)
      (by
        intro p hp
        simp only [List.mem_cons, List.not_mem_nil, or_false] at hp
        rcases hp with rfl | rfl
        · exact ⟨zero_le_three, zero_le_two⟩
        · exact ⟨zero_le_three, zero_le_four⟩)⟩

end Rofd
